import Mathlib

/-!
# Verification of the auto-SNS-producer batching core

Shallow embedding of the repository's batching/publishing core:

* `SNSProducer` (src/src/sns-producer.ts): `publishBatch`, `doPublishBatch`,
  `prepareBatch`, `verboseLoggingEnabled`, `countVerboseLogging`.
* `AutoSNSProducer` (src/src/auto-sns-producer.ts): `publishIgnoringErrors`,
  `onModuleDestroy`, `flush`.
* `MessageBatcher` (external `message-batcher` package, not under src/):
  modelled from the spec.

Effects are made explicit: the remote SNS client is a parameter
`send : List Entry → SendOutcome E`, log calls are collected into a
`List (LogEvent E)`, a rejected promise is an `Option E` component of the
result, and the mutable `verboseLogCount` field is threaded as explicit
state.
-/

namespace AutoSnsProducer

/-- A wire entry, `AWS.SNS.PublishBatchRequestEntry`:
`{ Id: string, Message: string }`. -/
structure Entry where
  Id : String
  Message : String
deriving DecidableEq, Repr

/-- The severity levels offered by the structured logger
(`debug`, `log`, `warn`, `error`). -/
inductive LogLevel where
  | debug
  | log
  | warn
  | error
deriving DecidableEq, Repr

/-- The settled result of one `publishBatch` API call: the lengths of the
`Successful` and `Failed` arrays of the response. -/
structure SendResult where
  successCount : Nat
  failureCount : Nat
deriving DecidableEq, Repr

/-- How one remote send call settles: resolved with a `SendResult`, or
rejected with a hard error of type `E`. -/
inductive SendOutcome (E : Type) where
  | ok (results : SendResult)
  | error (e : E)
deriving DecidableEq

/-- `SNSProducerOptions` after the constructor merged in `defaultOptions`
(src/src/sns-producer.ts, lines 6-17): `serializer` defaults to
`JSON.stringify`, `verboseBeginning` to `true`, `maxBatchSize` to `10`;
`prepareEntry` stays optional. -/
structure SNSProducerOptions (T : Type) where
  topicArn : String
  serializer : T → String
  prepareEntry : Option (T → Nat → Entry) := none
  verboseBeginning : Bool := true
  maxBatchSize : Nat := 10

/-- `MAX_VERBOSE_LOG_COUNT` (src/src/sns-producer.ts, line 19). -/
def MAX_VERBOSE_LOG_COUNT : Nat := 10

/-- The mutable per-instance state of an `SNSProducer`: the
`verboseLogCount` field (src/src/sns-producer.ts, line 27). -/
structure ProducerState where
  verboseLogCount : Nat
deriving DecidableEq, Repr

/-- JavaScript array input that is either one item or an array of items
(the `T | T[]` argument of `publishBatch`). -/
def normalizeInput {T : Type} : T ⊕ List T → List T
  | Sum.inl t => [t]
  | Sum.inr l => l

namespace MessageBatcher

/-- Modelled from the spec: `MessageBatcher.batch` lives in the external
`@raphaabreu/message-batcher` package, which is not under `src/`.  The spec
(§4.1) defines the partitioning as "contiguous chunks of exactly
`maxBatchSize` items, last chunk may be shorter; order preserved".
`fuel` is an upper bound on the list length making the recursion
structural; `batch` instantiates it with the length itself. -/
def batchAux {T : Type} (size : Nat) : Nat → List T → List (List T)
  | _, [] => []
  | 0, _ :: _ => []
  | fuel + 1, x :: xs => (x :: xs.take (size - 1)) :: batchAux size fuel (xs.drop (size - 1))

/-- Modelled from the spec: split a list into contiguous chunks of at most
`size` items, in order (spec §4.1, partitioning contract of
`MessageBatcher.batch`). -/
def batch {T : Type} (size : Nat) (l : List T) : List (List T) :=
  batchAux size l.length l

end MessageBatcher

/-- JavaScript `Array.prototype.map` handing each element its zero-based
index within the mapped array (`events.map((event, index) => ...)`). -/
def mapWithIndexGo {A B : Type} (f : A → Nat → B) : Nat → List A → List B
  | _, [] => []
  | i, x :: xs => f x i :: mapWithIndexGo f (i + 1) xs

/-- `l.map((x, i) => f(x, i))`. -/
def mapWithIndex {A B : Type} (f : A → Nat → B) (l : List A) : List B :=
  mapWithIndexGo f 0 l

namespace SNSProducer

variable {T E : Type}

/-- `prepareBatch` (src/src/sns-producer.ts, lines 95-104): use the
configured `prepareEntry` per item with its index if present, otherwise
build `{ Id: index.toString(), Message: serializer(event) }`. -/
def prepareBatch (opts : SNSProducerOptions T) (events : List T) : List Entry :=
  match opts.prepareEntry with
  | some f => mapWithIndex f events
  | none =>
      mapWithIndex (fun event index => { Id := toString index, Message := opts.serializer event })
        events

/-- `verboseLoggingEnabled` (src/src/sns-producer.ts, lines 106-108). -/
def verboseLoggingEnabled (opts : SNSProducerOptions T) (s : ProducerState) : Bool :=
  opts.verboseBeginning && decide (s.verboseLogCount < MAX_VERBOSE_LOG_COUNT)

/-- `countVerboseLogging` (src/src/sns-producer.ts, lines 110-117).  The
returned `Bool` records whether the one-time "Success messages will be
logged as debug from now on" notice was emitted by this call. -/
def countVerboseLogging (opts : SNSProducerOptions T) (s : ProducerState) :
    ProducerState × Bool :=
  if verboseLoggingEnabled opts s then
    let c := s.verboseLogCount + 1
    (⟨c⟩, c == MAX_VERBOSE_LOG_COUNT)
  else
    (s, false)

/-- Placeholder for `JSON.stringify(params.PublishBatchRequestEntries)`:
the serialized request payload included in the log scope while verbose
logging is active. -/
def serializeEntries (entries : List Entry) : String :=
  String.intercalate "," (entries.map fun e => e.Id ++ ":" ++ e.Message)

/-- One observable call into the structured logger:
* `published`: the per-batch outcome line of `doPublishBatch`'s success
  path, with its chosen level, the `messages` scope string, and the
  message/success/fail counts passed to the template;
* `publishFailed`: the `logger.error` call of the catch branch, carrying
  the triggering error and the entry count;
* `quietNotice`: the one-time `logger.log` notice of `countVerboseLogging`. -/
inductive LogEvent (E : Type) where
  | published (level : LogLevel) (scopeMessages : String)
      (messageCount successCount failCount : Nat)
  | publishFailed (e : E) (messageCount : Nat)
  | quietNotice
deriving DecidableEq

/-- The logger severity of an observable log event. -/
def LogEvent.level : LogEvent E → LogLevel
  | .published lvl _ _ _ _ => lvl
  | .publishFailed _ _ => .error
  | .quietNotice => .log

/-- `doPublishBatch` (src/src/sns-producer.ts, lines 53-93) for one chunk
whose send call settled as `outcome`.  Returns the new instance state, the
log events emitted, and `some e` when the call re-threw the error `e`
(`throws` true), `none` otherwise. -/
def doPublishBatch (opts : SNSProducerOptions T) (s : ProducerState) (messages : List T)
    (throws : Bool) (outcome : SendOutcome E) :
    ProducerState × List (LogEvent E) × Option E :=
  let entries := prepareBatch opts messages
  match outcome with
  | .ok results =>
      let verboseLog := verboseLoggingEnabled opts s
      let scopeMessages :=
        if !opts.verboseBeginning then "-"
        else if verboseLog then serializeEntries entries
        else "messages are only logged for the first 10 batches"
      let lvl : LogLevel :=
        if results.failureCount > 0 then .warn
        else if verboseLog then .log
        else .debug
      let ev : LogEvent E :=
        .published lvl scopeMessages entries.length results.successCount results.failureCount
      let step := countVerboseLogging opts s
      (step.1, ev :: (if step.2 then [.quietNotice] else []), none)
  | .error e =>
      (s, [.publishFailed e entries.length], if throws then some e else none)

/-- The chunk loop of `publishBatch`: one `doPublishBatch(b, true)` per
chunk, with the remote client modelled as `send`.  Collects the request
entry lists actually sent, the log events, and the first rejection
(`Promise.all` rejects with it). -/
def publishGo (opts : SNSProducerOptions T) (send : List Entry → SendOutcome E) :
    ProducerState → List (List T) →
      ProducerState × List (List Entry) × List (LogEvent E) × Option E
  | s, [] => (s, [], [], none)
  | s, c :: cs =>
      let entries := prepareBatch opts c
      let step := doPublishBatch opts s c true (send entries)
      let rest := publishGo opts send step.1 cs
      (rest.1, entries :: rest.2.1, step.2.1 ++ rest.2.2.1, step.2.2 <|> rest.2.2.2)

/-- `publishBatch` (src/src/sns-producer.ts, lines 47-51): split the input
(single item or array) into chunks of `maxBatchSize` with
`MessageBatcher.batch` and run `doPublishBatch(b, true)` on each. -/
def publishBatch (opts : SNSProducerOptions T) (s : ProducerState)
    (send : List Entry → SendOutcome E) (messages : T ⊕ List T) :
    ProducerState × List (List Entry) × List (LogEvent E) × Option E :=
  publishGo opts send s (MessageBatcher.batch opts.maxBatchSize (normalizeInput messages))

/-- The entry lists handed to the remote client by `publishBatch`. -/
def publishCalls (opts : SNSProducerOptions T) (send : List Entry → SendOutcome E)
    (s : ProducerState) (messages : T ⊕ List T) : List (List Entry) :=
  (publishBatch opts s send messages).2.1

/-- The head `published` event's level, if the first log event of a chunk
is the per-batch outcome line. -/
def publishedLevel : List (LogEvent E) → Option LogLevel
  | LogEvent.published lvl _ _ _ _ :: _ => some lvl
  | _ => none

/-- The head `published` event's `messages` scope string. -/
def publishedScope : List (LogEvent E) → Option String
  | LogEvent.published _ scope _ _ _ :: _ => some scope
  | _ => none

/-- Whether the one-time quiet-mode notice is among the log events. -/
def noticed (logs : List (LogEvent E)) : Bool :=
  logs.any fun ev =>
    match ev with
    | LogEvent.quietNotice => true
    | _ => false

/-- A sequence of `doPublishBatch` operations on one instance (each with
its chunk of messages and how its send call settled), threading the
mutable `verboseLogCount` state; yields the final state and the log
events of each operation. -/
def runPublishes (opts : SNSProducerOptions T) (s : ProducerState) :
    List (List T × SendOutcome E) → ProducerState × List (List (LogEvent E))
  | [] => (s, [])
  | (msgs, o) :: rest =>
      let step := doPublishBatch opts s msgs false o
      let next := runPublishes opts step.1 rest
      (next.1, step.2.1 :: next.2)

end SNSProducer

namespace AutoSNSProducer

open SNSProducer

variable {T E : Type}

/-- `publishIgnoringErrors` (src/src/auto-sns-producer.ts, lines 229-235):
`try { await this.snsProducer.publishBatch(messages); } catch (error) { // Do nothing }`.
The rejection component of the result is always `none`. -/
def publishIgnoringErrors (opts : SNSProducerOptions T) (s : ProducerState)
    (send : List Entry → SendOutcome E) (messages : List T) :
    ProducerState × List (List Entry) × List (LogEvent E) × Option E :=
  let r := SNSProducer.publishBatch opts s send (Sum.inr messages)
  (r.1, r.2.1, r.2.2.1, none)

/-- Modelled from the spec: the externally-packaged stateful
`MessageBatcher` and `PromiseCollector` are not under `src/`.  Per spec §3,
the batcher owns a `Buffer` of pending items and an `In-Flight Set` of
dispatched, not-yet-settled publish operations, and a timer that may be
armed or disarmed. -/
structure BatcherState (T : Type) where
  buffer : List T
  timerArmed : Bool
  inFlight : List (List T)

/-- Modelled from the spec: `batcher.stop()` "disarms the trigger; does not
itself flush or drain" (spec §4.2). -/
def stop (b : BatcherState T) : BatcherState T :=
  { b with timerArmed := false }

/-- Modelled from the spec: `batcher.flush()` "atomically swaps the Buffer
for an empty one, and if the swapped-out buffer is non-empty, dispatches it
... as one fire-and-forget asynchronous operation registered into the
In-Flight Set" (spec §4.2). -/
def batcherFlush (b : BatcherState T) : BatcherState T :=
  if b.buffer.isEmpty then b
  else { b with buffer := [], inFlight := b.inFlight ++ [b.buffer] }

/-- Settle the in-flight operations in dispatch order.  Each dispatched
batch runs the wrapped callback `publishIgnoringErrors`, producing its
chunked send calls (recorded at item granularity) and log events. -/
def settleInFlight (opts : SNSProducerOptions T) (send : List Entry → SendOutcome E) :
    ProducerState → List (List T) → ProducerState × List (List T) × List (LogEvent E)
  | s, [] => (s, [], [])
  | s, msgs :: rest =>
      let r := publishIgnoringErrors opts s send msgs
      let next := settleInFlight opts send r.1 rest
      (next.1, MessageBatcher.batch opts.maxBatchSize msgs ++ next.2.1, r.2.2.1 ++ next.2.2)

/-- Modelled from the spec: `await this.promiseCollector.pending()` "blocks
the caller until every operation currently in the In-Flight Set has
settled" (spec §4.2). -/
def awaitPending (opts : SNSProducerOptions T) (send : List Entry → SendOutcome E)
    (s : ProducerState) (b : BatcherState T) :
    BatcherState T × ProducerState × List (List T) × List (LogEvent E) :=
  let r := settleInFlight opts send s b.inFlight
  ({ b with inFlight := [] }, r.1, r.2.1, r.2.2)

/-- `flush` (src/src/auto-sns-producer.ts, lines 254-258):
`this.batcher.flush(); await this.promiseCollector.pending();`. -/
def flush (opts : SNSProducerOptions T) (send : List Entry → SendOutcome E)
    (s : ProducerState) (b : BatcherState T) :
    BatcherState T × ProducerState × List (List T) × List (LogEvent E) :=
  awaitPending opts send s (batcherFlush b)

/-- `onModuleDestroy` (src/src/auto-sns-producer.ts, lines 133-138 and
247-252): `this.batcher.stop(); await this.flush();`.  The third component
lists the batches sent (at item granularity, one entry per remote send
call) while the shutdown operation runs. -/
def onModuleDestroy (opts : SNSProducerOptions T) (send : List Entry → SendOutcome E)
    (s : ProducerState) (b : BatcherState T) :
    BatcherState T × ProducerState × List (List T) × List (LogEvent E) :=
  flush opts send s (stop b)

end AutoSNSProducer

/-- Concrete options mirroring the repository's test suite: a topic arn and
the default-merged options (`serializer` a structured-text encoding,
`prepareEntry` absent, `verboseBeginning` true, `maxBatchSize` 10). -/
def sampleOptions : SNSProducerOptions Nat :=
  { topicArn := "arn:aws:sns:us-east-1:123456789012:MyTopic"
    serializer := fun n => toString n }

/-- `sampleOptions` with the elevated-verbosity phase disabled. -/
def quietOptions : SNSProducerOptions Nat :=
  { sampleOptions with verboseBeginning := false }

/-- A custom entry constructor mirroring the test suite's
`prepareEntry: (event, index) => ({ Id: custom-index, ... })`. -/
def customPrepareEntry : Nat → Nat → Entry :=
  fun event index => { Id := "custom-" ++ toString index, Message := toString event }

/-- `sampleOptions` with `customPrepareEntry` configured. -/
def customEntryOptions : SNSProducerOptions Nat :=
  { sampleOptions with prepareEntry := some customPrepareEntry }

/-- A remote client that resolves every call with every entry successful. -/
def sendAllOk : List Entry → SendOutcome String :=
  fun entries => SendOutcome.ok ⟨entries.length, 0⟩

/-- An eleven-publish history: the first publish settles with one failed
entry, the following ten settle with zero failures. -/
def mixedResults : List SendResult :=
  SendResult.mk 0 1 :: List.replicate 10 (SendResult.mk 1 0)

/-! ## Supporting lemmas -/

namespace MessageBatcher

theorem batchAux_nil {T : Type} (size fuel : Nat) :
    batchAux (T := T) size fuel [] = [] := by
  cases fuel <;> rfl

theorem batch_nil {T : Type} (size : Nat) : batch (T := T) size [] = [] := rfl

theorem batchAux_flatten {T : Type} (size : Nat) :
    ∀ (fuel : Nat) (l : List T), l.length ≤ fuel → (batchAux size fuel l).flatten = l := by
  intro fuel
  induction fuel with
  | zero =>
    intro l h
    cases l with
    | nil => rfl
    | cons x xs => simp at h
  | succ fuel ih =>
    intro l h
    cases l with
    | nil => rfl
    | cons x xs =>
      have hxs : xs.length ≤ fuel := by
        simp only [List.length_cons] at h
        omega
      have hdlen : (xs.drop (size - 1)).length = xs.length - (size - 1) := by
        simp [List.length_drop]
      simp only [batchAux, List.flatten]
      rw [ih (xs.drop (size - 1)) (by omega)]
      simp [List.take_append_drop]

/-- Concatenating the chunks in order reproduces the original list. -/
theorem batch_flatten {T : Type} (size : Nat) (l : List T) :
    (batch size l).flatten = l :=
  batchAux_flatten size l.length l (Nat.le_refl _)

theorem batchAux_chunk_length {T : Type} (size : Nat) (hsize : 0 < size) :
    ∀ (fuel : Nat) (l : List T), ∀ c ∈ batchAux size fuel l, c.length ≤ size := by
  intro fuel
  induction fuel with
  | zero =>
    intro l c hc
    cases l with
    | nil => simp [batchAux] at hc
    | cons x xs => simp [batchAux] at hc
  | succ fuel ih =>
    intro l c hc
    cases l with
    | nil => simp [batchAux] at hc
    | cons x xs =>
      simp only [batchAux, List.mem_cons] at hc
      rcases hc with hc | hc
      · subst hc
        simp only [List.length_cons, List.length_take]
        omega
      · exact ih _ c hc

/-- Every chunk has at most `size` items (for a positive `size`). -/
theorem batch_chunk_length {T : Type} (size : Nat) (hsize : 0 < size) (l : List T) :
    ∀ c ∈ batch size l, c.length ≤ size :=
  batchAux_chunk_length size hsize l.length l

theorem batchAux_chunk_ne_nil {T : Type} (size : Nat) :
    ∀ (fuel : Nat) (l : List T), ∀ c ∈ batchAux size fuel l, c ≠ [] := by
  intro fuel
  induction fuel with
  | zero =>
    intro l c hc
    cases l with
    | nil => simp [batchAux] at hc
    | cons x xs => simp [batchAux] at hc
  | succ fuel ih =>
    intro l c hc
    cases l with
    | nil => simp [batchAux] at hc
    | cons x xs =>
      simp only [batchAux, List.mem_cons] at hc
      rcases hc with hc | hc
      · subst hc; simp
      · exact ih _ c hc

/-- No chunk is empty. -/
theorem batch_chunk_ne_nil {T : Type} (size : Nat) (l : List T) :
    ∀ c ∈ batch size l, c ≠ [] :=
  batchAux_chunk_ne_nil size l.length l

theorem batchAux_length {T : Type} (size : Nat) (hsize : 0 < size) :
    ∀ (fuel : Nat) (l : List T), l.length ≤ fuel → 0 < l.length →
      (batchAux size fuel l).length = (l.length - 1) / size + 1 := by
  intro fuel
  induction fuel with
  | zero =>
    intro l hle hpos
    omega
  | succ fuel ih =>
    intro l hle hpos
    cases l with
    | nil => simp at hpos
    | cons x xs =>
      simp only [batchAux, List.length_cons]
      by_cases hrest : xs.length ≤ size - 1
      · have hdrop : xs.drop (size - 1) = [] := List.drop_eq_nil_of_le hrest
        rw [hdrop, batchAux_nil]
        simp only [List.length_nil]
        have : xs.length + 1 - 1 < size := by omega
        rw [Nat.div_eq_of_lt this]
      · push_neg at hrest
        have hxs : xs.length ≤ fuel := by
          simp only [List.length_cons] at hle
          omega
        have hdlen : (xs.drop (size - 1)).length = xs.length - (size - 1) := by
          simp [List.length_drop]
        have hrec := ih (xs.drop (size - 1)) (by omega) (by omega)
        rw [hrec, hdlen]
        have h1 : xs.length - (size - 1) - 1 + size = xs.length + 1 - 1 := by omega
        have h2 : (xs.length - (size - 1) - 1) / size + 1 =
            (xs.length - (size - 1) - 1 + size) / size := by
          rw [Nat.add_div_right _ hsize]
        rw [h1] at h2
        omega

/-- The number of chunks is `ceil (n / size)`, written `(n + size - 1) / size`. -/
theorem batch_length {T : Type} (size : Nat) (hsize : 0 < size) (l : List T) :
    (batch size l).length = (l.length + size - 1) / size := by
  cases l with
  | nil =>
    simp only [batch_nil, List.length_nil, Nat.zero_add]
    rw [Nat.div_eq_of_lt (by omega)]
  | cons x xs =>
    rw [batch, batchAux_length size hsize _ _ (Nat.le_refl _) (by simp)]
    have h1 : (x :: xs).length + size - 1 = ((x :: xs).length - 1) + size := by
      simp only [List.length_cons]
      omega
    rw [h1, Nat.add_div_right _ hsize]

/-- A nonempty list that fits in one chunk is a single chunk. -/
theorem batch_singleton {T : Type} (size : Nat) (l : List T)
    (hpos : 0 < l.length) (hle : l.length ≤ size) :
    batch size l = [l] := by
  cases l with
  | nil => simp at hpos
  | cons x xs =>
    have hxs : xs.length ≤ size - 1 := by
      simp only [List.length_cons] at hle
      omega
    simp only [batch, List.length_cons, batchAux]
    have htake : xs.take (size - 1) = xs := List.take_of_length_le hxs
    have hdrop : xs.drop (size - 1) = [] := List.drop_eq_nil_of_le hxs
    rw [htake, hdrop, batchAux_nil]

end MessageBatcher

theorem mapWithIndexGo_length {A B : Type} (f : A → Nat → B) :
    ∀ (i : Nat) (l : List A), (mapWithIndexGo f i l).length = l.length := by
  intro i l
  induction l generalizing i with
  | nil => rfl
  | cons x xs ih => simp [mapWithIndexGo, ih]

theorem mapWithIndex_length {A B : Type} (f : A → Nat → B) (l : List A) :
    (mapWithIndex f l).length = l.length :=
  mapWithIndexGo_length f 0 l

theorem mapWithIndex_cons {A B : Type} (f : A → Nat → B) (x : A) (xs : List A) :
    mapWithIndex f (x :: xs) = f x 0 :: mapWithIndexGo f 1 xs := rfl

namespace SNSProducer

variable {T E : Type}

theorem prepareBatch_length (opts : SNSProducerOptions T) (events : List T) :
    (prepareBatch opts events).length = events.length := by
  unfold prepareBatch
  cases opts.prepareEntry <;> simp [mapWithIndex_length]

theorem publishGo_calls (opts : SNSProducerOptions T) (send : List Entry → SendOutcome E)
    (s : ProducerState) (cs : List (List T)) :
    (publishGo opts send s cs).2.1 = cs.map (prepareBatch opts) := by
  induction cs generalizing s with
  | nil => rfl
  | cons c cs ih => simp [publishGo, ih]

theorem publishCalls_eq (opts : SNSProducerOptions T) (send : List Entry → SendOutcome E)
    (s : ProducerState) (msgs : List T) :
    publishCalls opts send s (Sum.inr msgs)
      = (MessageBatcher.batch opts.maxBatchSize msgs).map (prepareBatch opts) :=
  publishGo_calls opts send s _

theorem countVerboseLogging_count (opts : SNSProducerOptions T) (s : ProducerState) :
    (countVerboseLogging opts s).1.verboseLogCount
      = if verboseLoggingEnabled opts s then s.verboseLogCount + 1 else s.verboseLogCount := by
  unfold countVerboseLogging
  split <;> rfl

theorem countVerboseLogging_of_ge (opts : SNSProducerOptions T) (s : ProducerState)
    (h : MAX_VERBOSE_LOG_COUNT ≤ s.verboseLogCount) :
    countVerboseLogging opts s = (s, false) := by
  have henabled : verboseLoggingEnabled opts s = false := by
    unfold verboseLoggingEnabled MAX_VERBOSE_LOG_COUNT at *
    have : decide (s.verboseLogCount < 10) = false := by
      simp only [decide_eq_false_iff_not]
      omega
    simp [this]
  unfold countVerboseLogging
  simp [henabled]

theorem doPublishBatch_state_ok (opts : SNSProducerOptions T) (s : ProducerState)
    (msgs : List T) (throws : Bool) (results : SendResult) :
    (doPublishBatch opts s msgs throws (SendOutcome.ok results : SendOutcome E)).1
      = (countVerboseLogging opts s).1 := rfl

theorem doPublishBatch_state_error (opts : SNSProducerOptions T) (s : ProducerState)
    (msgs : List T) (throws : Bool) (e : E) :
    (doPublishBatch opts s msgs throws (SendOutcome.error e)).1 = s := rfl

theorem runPublishes_count_mono (opts : SNSProducerOptions T) (s : ProducerState)
    (ops : List (List T × SendOutcome E)) :
    s.verboseLogCount ≤ (runPublishes opts s ops).1.verboseLogCount := by
  induction ops generalizing s with
  | nil => exact Nat.le_refl _
  | cons op ops ih =>
    obtain ⟨msgs, o⟩ := op
    simp only [runPublishes]
    refine Nat.le_trans ?_ (ih _)
    cases o with
    | ok r =>
      rw [doPublishBatch_state_ok, countVerboseLogging_count]
      split <;> omega
    | error e =>
      rw [doPublishBatch_state_error]

theorem runPublishes_count_le (opts : SNSProducerOptions T) (s : ProducerState)
    (ops : List (List T × SendOutcome E)) (h : s.verboseLogCount ≤ MAX_VERBOSE_LOG_COUNT) :
    (runPublishes opts s ops).1.verboseLogCount ≤ MAX_VERBOSE_LOG_COUNT := by
  induction ops generalizing s with
  | nil => exact h
  | cons op ops ih =>
    obtain ⟨msgs, o⟩ := op
    simp only [runPublishes]
    apply ih
    cases o with
    | ok r =>
      rw [doPublishBatch_state_ok, countVerboseLogging_count]
      unfold verboseLoggingEnabled MAX_VERBOSE_LOG_COUNT at *
      split <;> rename_i hcond
      · have := of_decide_eq_true (Bool.and_elim_right hcond)
        omega
      · omega
    | error e =>
      rw [doPublishBatch_state_error]
      exact h

theorem doPublishBatch_publishedLevel (opts : SNSProducerOptions T) (s : ProducerState)
    (msgs : List T) (throws : Bool) (r : SendResult) :
    publishedLevel ((doPublishBatch opts s msgs throws (SendOutcome.ok r : SendOutcome E)).2.1)
      = some (if 0 < r.failureCount then LogLevel.warn
              else if verboseLoggingEnabled opts s then LogLevel.log
              else LogLevel.debug) := rfl

theorem doPublishBatch_publishedScope (opts : SNSProducerOptions T) (s : ProducerState)
    (msgs : List T) (throws : Bool) (r : SendResult) :
    publishedScope ((doPublishBatch opts s msgs throws (SendOutcome.ok r : SendOutcome E)).2.1)
      = some (if !opts.verboseBeginning then "-"
              else if verboseLoggingEnabled opts s then serializeEntries (prepareBatch opts msgs)
              else "messages are only logged for the first 10 batches") := rfl

theorem doPublishBatch_noticed (opts : SNSProducerOptions T) (s : ProducerState)
    (msgs : List T) (throws : Bool) (r : SendResult) :
    noticed ((doPublishBatch opts s msgs throws (SendOutcome.ok r : SendOutcome E)).2.1)
      = (countVerboseLogging opts s).2 := by
  simp only [doPublishBatch, noticed, List.any_cons]
  cases hstep : (countVerboseLogging opts s).2 <;> simp [hstep]

theorem runPublishes_ok_getD (opts : SNSProducerOptions T)
    (hvb : opts.verboseBeginning = true) :
    ∀ (ps : List (List T × SendResult)) (s : ProducerState),
      s.verboseLogCount ≤ MAX_VERBOSE_LOG_COUNT → ∀ i, i < ps.length →
        (runPublishes opts s (ps.map fun p => (p.1, (SendOutcome.ok p.2 : SendOutcome E)))).2.getD i []
          = (doPublishBatch opts ⟨min (s.verboseLogCount + i) MAX_VERBOSE_LOG_COUNT⟩
              (ps.getD i ([], ⟨0, 0⟩)).1 false
              (SendOutcome.ok (ps.getD i ([], ⟨0, 0⟩)).2 : SendOutcome E)).2.1 := by
  intro ps
  induction ps with
  | nil =>
    intro s hs i hi
    simp at hi
  | cons p ps ih =>
    intro s hs i hi
    obtain ⟨c⟩ := s
    simp only [MAX_VERBOSE_LOG_COUNT] at hs
    cases i with
    | zero =>
      have hmin : min (ProducerState.verboseLogCount ⟨c⟩ + 0) MAX_VERBOSE_LOG_COUNT = c := by
        simp only [MAX_VERBOSE_LOG_COUNT]
        omega
      simp only [List.map_cons, runPublishes, List.getD_cons_zero, hmin]
    | succ i =>
      have hi' : i < ps.length := by
        simp only [List.length_cons] at hi
        omega
      have hs1 : (doPublishBatch opts ⟨c⟩ p.1 false (SendOutcome.ok p.2 : SendOutcome E)).1.verboseLogCount
          = if c < MAX_VERBOSE_LOG_COUNT then c + 1 else c := by
        rw [doPublishBatch_state_ok, countVerboseLogging_count]
        unfold verboseLoggingEnabled
        rw [hvb]
        simp only [MAX_VERBOSE_LOG_COUNT, Bool.true_and]
        split <;> rename_i hcond
        · rw [if_pos (of_decide_eq_true hcond)]
        · rw [if_neg (of_decide_eq_false (Bool.of_not_eq_true hcond))]
      simp only [List.map_cons, runPublishes, List.getD_cons_succ]
      rw [ih _ (by rw [hs1]; simp only [MAX_VERBOSE_LOG_COUNT]; split <;> omega) i hi']
      have hmin : min ((doPublishBatch opts ⟨c⟩ p.1 false (SendOutcome.ok p.2 : SendOutcome E)).1.verboseLogCount + i)
            MAX_VERBOSE_LOG_COUNT
          = min (ProducerState.verboseLogCount ⟨c⟩ + (i + 1)) MAX_VERBOSE_LOG_COUNT := by
        rw [hs1]
        simp only [MAX_VERBOSE_LOG_COUNT]
        split <;> omega
      rw [hmin]

theorem runPublishes_quiet (opts : SNSProducerOptions T) (s : ProducerState)
    (h : MAX_VERBOSE_LOG_COUNT ≤ s.verboseLogCount) (ops : List (List T × SendOutcome E)) :
    (runPublishes opts s ops).1 = s
      ∧ ∀ logs ∈ (runPublishes opts s ops).2, publishedLevel logs ≠ some LogLevel.log := by
  have henabled : verboseLoggingEnabled opts s = false := by
    unfold verboseLoggingEnabled MAX_VERBOSE_LOG_COUNT at *
    have : decide (s.verboseLogCount < 10) = false := by
      simp only [decide_eq_false_iff_not]
      omega
    simp [this]
  induction ops with
  | nil => exact ⟨rfl, by intro logs hlogs; simp [runPublishes] at hlogs⟩
  | cons op ops ih =>
    obtain ⟨msgs, o⟩ := op
    have hstate : (doPublishBatch opts s msgs false (o : SendOutcome E)).1 = s := by
      cases o with
      | ok r => rw [doPublishBatch_state_ok, countVerboseLogging_of_ge opts s h]
      | error e => rw [doPublishBatch_state_error]
    constructor
    · simp only [runPublishes, hstate]
      exact ih.1
    · intro logs hlogs
      simp only [runPublishes, hstate, List.mem_cons] at hlogs
      rcases hlogs with hlogs | hlogs
      · subst hlogs
        cases o with
        | ok r =>
          simp only [doPublishBatch, henabled, publishedLevel]
          split <;> simp [publishedLevel]
        | error e =>
          simp [doPublishBatch, publishedLevel]
      · exact ih.2 logs hlogs

/-! ## Claim theorems -/

/-- C1: For every input to `publishBatch` of `n ≥ 0` items (a single item
counting as `n = 1`), the number of underlying send calls equals
`ceil (n / maxBatchSize)`, each send call receives a contiguous chunk of at
most `maxBatchSize` items, and concatenating the chunks in call order
reproduces the original item order; in particular, for `n = 0` no send call
is made and the operation succeeds immediately. -/
theorem C1_publishBatch_chunking (opts : SNSProducerOptions T)
    (send : List Entry → SendOutcome E) (s : ProducerState) (msgs : List T)
    (hsize : 0 < opts.maxBatchSize) :
    (publishCalls opts send s (Sum.inr msgs)).length
        = (msgs.length + opts.maxBatchSize - 1) / opts.maxBatchSize
    ∧ (∀ c ∈ MessageBatcher.batch opts.maxBatchSize msgs, c.length ≤ opts.maxBatchSize)
    ∧ (MessageBatcher.batch opts.maxBatchSize msgs).flatten = msgs
    ∧ (∀ call ∈ publishCalls opts send s (Sum.inr msgs), call.length ≤ opts.maxBatchSize)
    ∧ (∀ t : T, publishCalls opts send s (Sum.inl t) = publishCalls opts send s (Sum.inr [t]))
    ∧ (msgs = [] →
        publishCalls opts send s (Sum.inr msgs) = []
        ∧ (publishBatch opts s send (Sum.inr msgs)).2.2.2 = none
        ∧ (publishBatch opts s send (Sum.inr msgs)).1 = s) := by
  refine ⟨?_, ?_, ?_, ?_, ?_, ?_⟩
  · rw [publishCalls_eq, List.length_map, MessageBatcher.batch_length _ hsize]
  · exact MessageBatcher.batch_chunk_length _ hsize msgs
  · exact MessageBatcher.batch_flatten _ msgs
  · intro call hcall
    rw [publishCalls_eq] at hcall
    obtain ⟨c, hc, hceq⟩ := List.mem_map.mp hcall
    rw [← hceq, prepareBatch_length]
    exact MessageBatcher.batch_chunk_length _ hsize msgs c hc
  · intro t
    rfl
  · intro hnil
    subst hnil
    exact ⟨rfl, rfl, rfl⟩

/-- C1 witness: 12 items with the default `maxBatchSize = 10` yield exactly
`ceil (12 / 10) = 2` send calls. -/
theorem C1_publishBatch_chunking_witness :
    0 < sampleOptions.maxBatchSize
    ∧ (publishCalls sampleOptions sendAllOk ⟨0⟩
          (Sum.inr [1, 2, 3, 4, 5, 6, 7, 8, 9, 10, 11, 12])).length
        = (([1, 2, 3, 4, 5, 6, 7, 8, 9, 10, 11, 12] : List Nat).length
            + sampleOptions.maxBatchSize - 1) / sampleOptions.maxBatchSize
    ∧ (publishCalls sampleOptions sendAllOk ⟨0⟩
          (Sum.inr [1, 2, 3, 4, 5, 6, 7, 8, 9, 10, 11, 12])).length = 2 :=
  ⟨by decide,
    (C1_publishBatch_chunking sampleOptions sendAllOk ⟨0⟩
      [1, 2, 3, 4, 5, 6, 7, 8, 9, 10, 11, 12] (by decide)).1,
    by decide⟩

/-- C4: for a publish whose send call settles, the outcome line is logged
at `warn` severity if and only if `failureCount > 0`, independently of the
instance state and of `verboseBeginning`. -/
theorem C4_warn_iff_failures (opts : SNSProducerOptions T) (s : ProducerState)
    (msgs : List T) (throws : Bool) (r : SendResult) :
    publishedLevel ((doPublishBatch opts s msgs throws (SendOutcome.ok r : SendOutcome E)).2.1)
        = some LogLevel.warn
      ↔ 0 < r.failureCount := by
  rw [doPublishBatch_publishedLevel]
  by_cases hf : 0 < r.failureCount
  · simp [hf]
  · simp only [hf, if_false, iff_false]
    split <;> simp [hf]

/-- C10: a publish whose send call rejects leaves the instance state (and
in particular the verbose-log counter) unchanged; only the success branch
performs the `countVerboseLogging` update. -/
theorem C10_error_keeps_counter (opts : SNSProducerOptions T) (s : ProducerState)
    (msgs : List T) (throws : Bool) (e : E) :
    (doPublishBatch opts s msgs throws (SendOutcome.error e)).1 = s
    ∧ ∀ r : SendResult,
        (doPublishBatch opts s msgs throws (SendOutcome.ok r : SendOutcome E)).1
          = (countVerboseLogging opts s).1 :=
  ⟨rfl, fun _ => rfl⟩

/-- C9: with `verboseBeginning = false`, every settled publish logs its
`messages` scope as `"-"` (the serialized payload is never included), and a
zero-failure outcome is logged at `debug` regardless of the counter. -/
theorem C9_verboseBeginning_false (opts : SNSProducerOptions T)
    (h : opts.verboseBeginning = false) (s : ProducerState) (msgs : List T)
    (throws : Bool) (r : SendResult) :
    publishedScope ((doPublishBatch opts s msgs throws (SendOutcome.ok r : SendOutcome E)).2.1)
        = some "-"
    ∧ (r.failureCount = 0 →
        publishedLevel ((doPublishBatch opts s msgs throws (SendOutcome.ok r : SendOutcome E)).2.1)
          = some LogLevel.debug) := by
  have henabled : verboseLoggingEnabled opts s = false := by
    unfold verboseLoggingEnabled
    rw [h]
    rfl
  constructor
  · rw [doPublishBatch_publishedScope, h]
    rfl
  · intro hf
    rw [doPublishBatch_publishedLevel, henabled, hf]
    rfl

/-- C9 witness. -/
theorem C9_verboseBeginning_false_witness :
    quietOptions.verboseBeginning = false
    ∧ publishedScope ((doPublishBatch quietOptions ⟨0⟩ [1, 2] false
          (SendOutcome.ok ⟨2, 0⟩ : SendOutcome String)).2.1) = some "-"
    ∧ publishedLevel ((doPublishBatch quietOptions ⟨0⟩ [1, 2] false
          (SendOutcome.ok ⟨2, 0⟩ : SendOutcome String)).2.1) = some LogLevel.debug :=
  ⟨rfl,
    (C9_verboseBeginning_false quietOptions rfl ⟨0⟩ [1, 2] false ⟨2, 0⟩).1,
    (C9_verboseBeginning_false quietOptions rfl ⟨0⟩ [1, 2] false ⟨2, 0⟩).2 rfl⟩

/-- C5: without a `prepareEntry` override, every send call's entries are
`{ Id: index.toString(), Message: serializer(item) }` with `index` the
item's zero-based position within its containing chunk, so the entry ids of
every chunk independently restart at `"0"`. -/
theorem C5_default_entries_chunk_local (opts : SNSProducerOptions T)
    (send : List Entry → SendOutcome E) (s : ProducerState) (msgs : List T)
    (h : opts.prepareEntry = none) :
    publishCalls opts send s (Sum.inr msgs)
        = (MessageBatcher.batch opts.maxBatchSize msgs).map
            (fun c => mapWithIndex (fun event index =>
              { Id := toString index, Message := opts.serializer event }) c)
    ∧ ∀ call ∈ publishCalls opts send s (Sum.inr msgs),
        call.head?.map Entry.Id = some "0" := by
  have hdefault : ∀ c : List T,
      prepareBatch opts c
        = mapWithIndex (fun event index =>
            { Id := toString index, Message := opts.serializer event }) c := by
    intro c
    unfold prepareBatch
    rw [h]
  constructor
  · rw [publishCalls_eq]
    exact List.map_congr_left fun c _ => hdefault c
  · intro call hcall
    rw [publishCalls_eq] at hcall
    obtain ⟨c, hc, hceq⟩ := List.mem_map.mp hcall
    have hne : c ≠ [] := MessageBatcher.batch_chunk_ne_nil _ msgs c hc
    cases c with
    | nil => exact absurd rfl hne
    | cons y ys =>
      rw [← hceq, hdefault, mapWithIndex_cons]
      rfl

/-- C5 witness: 12 default-serialized items are split into two send calls
whose entry ids both start at `"0"`. -/
theorem C5_default_entries_chunk_local_witness :
    sampleOptions.prepareEntry = none
    ∧ publishCalls sampleOptions sendAllOk ⟨0⟩
          (Sum.inr [1, 2, 3, 4, 5, 6, 7, 8, 9, 10, 11, 12])
        = (MessageBatcher.batch sampleOptions.maxBatchSize
            [1, 2, 3, 4, 5, 6, 7, 8, 9, 10, 11, 12]).map
            (fun c => mapWithIndex (fun event index =>
              { Id := toString index, Message := sampleOptions.serializer event }) c)
    ∧ (publishCalls sampleOptions sendAllOk ⟨0⟩
          (Sum.inr [1, 2, 3, 4, 5, 6, 7, 8, 9, 10, 11, 12])).map
          (fun call => call.head?.map Entry.Id)
        = [some "0", some "0"] :=
  ⟨rfl,
    (C5_default_entries_chunk_local sampleOptions sendAllOk ⟨0⟩
      [1, 2, 3, 4, 5, 6, 7, 8, 9, 10, 11, 12] rfl).1,
    by decide⟩

/-- C6: with a `prepareEntry` function configured, the entries of every
chunk are exactly `prepareEntry` applied to each item with its within-chunk
index; the serializer is never applied (the result is independent of it),
and the default construction is used only when `prepareEntry` is absent. -/
theorem C6_prepareEntry_override (opts : SNSProducerOptions T) (f : T → Nat → Entry)
    (send : List Entry → SendOutcome E) (s : ProducerState) (msgs events : List T)
    (h : opts.prepareEntry = some f) :
    prepareBatch opts events = mapWithIndex f events
    ∧ (∀ σ : T → String,
        prepareBatch { opts with serializer := σ } events = mapWithIndex f events)
    ∧ publishCalls opts send s (Sum.inr msgs)
        = (MessageBatcher.batch opts.maxBatchSize msgs).map (fun c => mapWithIndex f c) := by
  have hover : ∀ (σ : T → String) (c : List T),
      prepareBatch { opts with serializer := σ } c = mapWithIndex f c := by
    intro σ c
    unfold prepareBatch
    simp only []
    rw [show ({ opts with serializer := σ } : SNSProducerOptions T).prepareEntry = some f from h]
  refine ⟨?_, fun σ => hover σ events, ?_⟩
  · unfold prepareBatch
    rw [h]
  · rw [publishCalls_eq]
    refine List.map_congr_left fun c _ => ?_
    unfold prepareBatch
    rw [h]

/-- C6 witness: the custom `prepareEntry` of the test suite yields
`custom-0`, `custom-1`, ... ids and ignores the serializer. -/
theorem C6_prepareEntry_override_witness :
    customEntryOptions.prepareEntry = some customPrepareEntry
    ∧ prepareBatch customEntryOptions [7, 8, 9] = mapWithIndex customPrepareEntry [7, 8, 9]
    ∧ prepareBatch customEntryOptions [7, 8, 9]
        = [⟨"custom-0", "7"⟩, ⟨"custom-1", "8"⟩, ⟨"custom-2", "9"⟩] :=
  ⟨rfl,
    (C6_prepareEntry_override customEntryOptions customPrepareEntry sendAllOk ⟨0⟩
      [] [7, 8, 9] rfl).1,
    by decide⟩

/-- C2: if the remote send call rejects with a hard error, a manually
invoked `publishBatch` rejects with that same error, while
`publishIgnoringErrors` (the automatic-flush callback) swallows it; in both
paths the error is logged at `error` severity together with the item
count. -/
theorem C2_hard_error_propagation (opts : SNSProducerOptions T) (s : ProducerState)
    (msgs : List T) (e : E) (hpos : 0 < msgs.length)
    (hle : msgs.length ≤ opts.maxBatchSize) :
    (publishBatch opts s (fun _ => SendOutcome.error e) (Sum.inr msgs)).2.2.2 = some e
    ∧ (AutoSNSProducer.publishIgnoringErrors opts s (fun _ => SendOutcome.error e) msgs).2.2.2
        = none
    ∧ (publishBatch opts s (fun _ => SendOutcome.error e) (Sum.inr msgs)).2.2.1
        = [LogEvent.publishFailed e msgs.length]
    ∧ (AutoSNSProducer.publishIgnoringErrors opts s (fun _ => SendOutcome.error e) msgs).2.2.1
        = [LogEvent.publishFailed e msgs.length]
    ∧ (LogEvent.publishFailed e msgs.length : LogEvent E).level = LogLevel.error := by
  have hchunks : MessageBatcher.batch opts.maxBatchSize msgs = [msgs] :=
    MessageBatcher.batch_singleton _ msgs hpos hle
  have hbase :
      publishBatch opts s (fun _ => SendOutcome.error e) (Sum.inr msgs)
        = (s, [prepareBatch opts msgs],
            [LogEvent.publishFailed e (prepareBatch opts msgs).length], some e) := by
    unfold publishBatch
    show publishGo opts _ s (MessageBatcher.batch opts.maxBatchSize msgs) = _
    rw [hchunks]
    rfl
  refine ⟨?_, ?_, ?_, ?_, rfl⟩
  · rw [hbase]
  · rfl
  · rw [hbase, prepareBatch_length]
  · show (publishBatch opts s (fun _ => SendOutcome.error e) (Sum.inr msgs)).2.2.1 = _
    rw [hbase, prepareBatch_length]

/-- C2 witness: mirrors the test "should throw an error when publishing
fails". -/
theorem C2_hard_error_propagation_witness :
    (0 < ([1, 2, 3] : List Nat).length
      ∧ ([1, 2, 3] : List Nat).length ≤ sampleOptions.maxBatchSize)
    ∧ (publishBatch sampleOptions ⟨0⟩
          (fun _ => SendOutcome.error "Publishing failed") (Sum.inr [1, 2, 3])).2.2.2
        = some "Publishing failed"
    ∧ (AutoSNSProducer.publishIgnoringErrors sampleOptions ⟨0⟩
          (fun _ => SendOutcome.error "Publishing failed") [1, 2, 3]).2.2.2
        = none :=
  ⟨⟨by decide, by decide⟩,
    (C2_hard_error_propagation sampleOptions ⟨0⟩ [1, 2, 3] "Publishing failed"
      (by decide) (by decide)).1,
    (C2_hard_error_propagation sampleOptions ⟨0⟩ [1, 2, 3] "Publishing failed"
      (by decide) (by decide)).2.1⟩

/-- C8: the verbose-log counter never decreases (per operation and along
any run), never exceeds the threshold 10 once at or below it, and the quiet
transition is one-way: once the counter has reached 10, every later run
leaves the state unchanged and never logs a publish outcome at the elevated
`log` level again. -/
theorem C8_verbose_counter_invariants (opts : SNSProducerOptions T) (s : ProducerState)
    (msgs : List T) (throws : Bool) (o : SendOutcome E) :
    s.verboseLogCount ≤ (doPublishBatch opts s msgs throws o).1.verboseLogCount
    ∧ (∀ ops : List (List T × SendOutcome E),
        s.verboseLogCount ≤ (runPublishes opts s ops).1.verboseLogCount)
    ∧ (s.verboseLogCount ≤ MAX_VERBOSE_LOG_COUNT →
        (doPublishBatch opts s msgs throws o).1.verboseLogCount ≤ MAX_VERBOSE_LOG_COUNT
        ∧ ∀ ops : List (List T × SendOutcome E),
            (runPublishes opts s ops).1.verboseLogCount ≤ MAX_VERBOSE_LOG_COUNT)
    ∧ (MAX_VERBOSE_LOG_COUNT ≤ s.verboseLogCount →
        ∀ ops : List (List T × SendOutcome E),
          (runPublishes opts s ops).1 = s
          ∧ ∀ logs ∈ (runPublishes opts s ops).2, publishedLevel logs ≠ some LogLevel.log) := by
  have hstep : s.verboseLogCount ≤ (doPublishBatch opts s msgs throws o).1.verboseLogCount := by
    cases o with
    | ok r =>
      rw [doPublishBatch_state_ok, countVerboseLogging_count]
      split <;> omega
    | error e =>
      rw [doPublishBatch_state_error]
  refine ⟨hstep, fun ops => runPublishes_count_mono opts s ops, fun hle => ⟨?_, ?_⟩, ?_⟩
  · cases o with
    | ok r =>
      rw [doPublishBatch_state_ok, countVerboseLogging_count]
      unfold verboseLoggingEnabled MAX_VERBOSE_LOG_COUNT at *
      split <;> rename_i hcond
      · have := of_decide_eq_true (Bool.and_elim_right hcond)
        omega
      · omega
    | error e =>
      rw [doPublishBatch_state_error]
      exact hle
  · exact fun ops => runPublishes_count_le opts s ops hle
  · exact fun hge ops => runPublishes_quiet opts s hge ops

/-- C8 witness: at counter 10 a further successful publish leaves the state
at 10. -/
theorem C8_verbose_counter_invariants_witness :
    MAX_VERBOSE_LOG_COUNT ≤ (ProducerState.mk 10).verboseLogCount
    ∧ (runPublishes sampleOptions ⟨10⟩
          [(([] : List Nat), (SendOutcome.ok ⟨1, 0⟩ : SendOutcome String))]).1
        = ⟨10⟩
    ∧ (ProducerState.mk 10).verboseLogCount
        ≤ (doPublishBatch sampleOptions ⟨10⟩ ([] : List Nat) false
            (SendOutcome.ok ⟨1, 0⟩ : SendOutcome String)).1.verboseLogCount :=
  ⟨by decide,
    ((C8_verbose_counter_invariants sampleOptions ⟨10⟩ [] false
        (SendOutcome.ok ⟨1, 0⟩ : SendOutcome String)).2.2.2 (by decide)
      [(([] : List Nat), (SendOutcome.ok ⟨1, 0⟩ : SendOutcome String))]).1,
    (C8_verbose_counter_invariants sampleOptions ⟨10⟩ [] false
        (SendOutcome.ok ⟨1, 0⟩ : SendOutcome String)).1⟩

/-- C3 counterexample: with all options at their defaults
(`verboseBeginning = true`) consider an instance whose first publish
settled with `failureCount = 1` and whose next ten publishes settled with
zero failures.  The publish at index 10 is the 10th zero-failure publish of
the instance (exactly 9 zero-failure publishes precede it), yet it is
logged at `debug`, not at the elevated level, and the one-time quiet-mode
notice fired at index 9, the 9th zero-failure publish — because publishes
with failures also consume the verbose-log allowance. -/
theorem C3_verbose_phase_counterexample :
    ((mixedResults.getD 10 ⟨0, 0⟩).failureCount = 0
      ∧ ((mixedResults.take 10).countP fun r => r.failureCount == 0) = 9)
    ∧ publishedLevel
        ((runPublishes sampleOptions ⟨0⟩
            (mixedResults.map fun r =>
              (([] : List Nat), (SendOutcome.ok r : SendOutcome String)))).2.getD 10 [])
        = some LogLevel.debug
    ∧ noticed
        ((runPublishes sampleOptions ⟨0⟩
            (mixedResults.map fun r =>
              (([] : List Nat), (SendOutcome.ok r : SendOutcome String)))).2.getD 9 [])
        = true := by
  decide

/-- C3 amended: with `verboseBeginning` left at its default and the counter
starting at 0, the elevated-verbosity allowance is consumed by the first 10
publishes whose send call settles successfully, regardless of their failure
counts: a settled publish is logged at `warn` if it has failures, otherwise
at the elevated `log` level iff it is among the first 10 settled publishes
of the instance (at `debug` afterwards), and the one-time quiet-mode notice
is emitted exactly at the 10th settled publish (index 9).  In particular,
when every publish settles with zero failures, the elevated level occurs
exactly for the first 10 publishes and the notice at the 10th. -/
theorem C3_verbose_phase_amended (opts : SNSProducerOptions T)
    (hvb : opts.verboseBeginning = true)
    (ps : List (List T × SendResult)) (i : Nat) (hi : i < ps.length) :
    publishedLevel
        ((runPublishes opts ⟨0⟩
            (ps.map fun p => (p.1, (SendOutcome.ok p.2 : SendOutcome E)))).2.getD i [])
      = some (if 0 < (ps.getD i ([], ⟨0, 0⟩)).2.failureCount then LogLevel.warn
              else if i < 10 then LogLevel.log else LogLevel.debug)
    ∧ noticed
        ((runPublishes opts ⟨0⟩
            (ps.map fun p => (p.1, (SendOutcome.ok p.2 : SendOutcome E)))).2.getD i [])
      = decide (i = 9) := by
  rw [runPublishes_ok_getD opts hvb ps ⟨0⟩ (by decide) i hi]
  have hstate : (⟨min ((ProducerState.mk 0).verboseLogCount + i) MAX_VERBOSE_LOG_COUNT⟩
        : ProducerState) = ⟨min i 10⟩ := by
    simp [MAX_VERBOSE_LOG_COUNT]
  rw [hstate]
  have henabled : verboseLoggingEnabled opts (⟨min i 10⟩ : ProducerState) = decide (i < 10) := by
    unfold verboseLoggingEnabled
    rw [hvb, Bool.true_and, decide_eq_decide]
    show min i 10 < MAX_VERBOSE_LOG_COUNT ↔ i < 10
    unfold MAX_VERBOSE_LOG_COUNT
    omega
  constructor
  · rw [doPublishBatch_publishedLevel, henabled]
    by_cases hf : 0 < (ps.getD i ([], ⟨0, 0⟩)).2.failureCount
    · simp [hf]
    · by_cases h10 : i < 10 <;> simp [hf, h10]
  · rw [doPublishBatch_noticed]
    unfold countVerboseLogging
    simp only [henabled]
    by_cases h10 : i < 10
    · simp only [decide_eq_true_eq]
      rw [if_pos h10]
      by_cases h9 : i = 9
      · subst h9
        rfl
      · have hne : min i 10 + 1 ≠ MAX_VERBOSE_LOG_COUNT := by
          unfold MAX_VERBOSE_LOG_COUNT
          omega
        simp [hne, h9]
    · have h9 : i ≠ 9 := by omega
      simp [h10, h9]

/-- C3 witness for the amended claim: in an all-zero-failure run of 12
publishes, the publish at index 10 (the 11th) is logged at `debug`. -/
theorem C3_verbose_phase_amended_witness :
    sampleOptions.verboseBeginning = true
    ∧ (10 : Nat) < (List.replicate 12 (([] : List Nat), SendResult.mk 1 0)).length
    ∧ publishedLevel
        ((runPublishes sampleOptions ⟨0⟩
            ((List.replicate 12 (([] : List Nat), SendResult.mk 1 0)).map fun p =>
              (p.1, (SendOutcome.ok p.2 : SendOutcome String)))).2.getD 10 [])
      = some (if 0 < ((List.replicate 12 (([] : List Nat), SendResult.mk 1 0)).getD 10
              ([], ⟨0, 0⟩)).2.failureCount then LogLevel.warn
              else if 10 < 10 then LogLevel.log else LogLevel.debug) :=
  ⟨rfl, by decide,
    (C3_verbose_phase_amended sampleOptions rfl
      (List.replicate 12 (([] : List Nat), SendResult.mk 1 0)) 10 (by decide)).1⟩

end SNSProducer

namespace AutoSNSProducer

open SNSProducer

variable {T E : Type}

/-- C7: the shutdown hook first disarms the periodic trigger, then performs
a final flush and awaits all in-flight operations; with one item still
buffered and nothing else in flight, exactly one additional send call
occurs (carrying exactly that item) before the shutdown resolves, and the
buffer and in-flight set end empty. -/
theorem C7_shutdown_drains_buffer (opts : SNSProducerOptions T)
    (send : List Entry → SendOutcome E) (s : ProducerState)
    (b : BatcherState T) (x : T) (hbuf : b.buffer = [x]) (hin : b.inFlight = [])
    (hsize : 0 < opts.maxBatchSize) :
    (onModuleDestroy opts send s b).1.timerArmed = false
    ∧ (onModuleDestroy opts send s b).1.buffer = []
    ∧ (onModuleDestroy opts send s b).1.inFlight = []
    ∧ (onModuleDestroy opts send s b).2.2.1 = [[x]] := by
  have hchunk : MessageBatcher.batch opts.maxBatchSize [x] = [[x]] :=
    MessageBatcher.batch_singleton _ [x] (by simp)
      (by simp only [List.length_cons, List.length_nil]; omega)
  obtain ⟨buf, timer, infl⟩ := b
  simp only at hbuf hin
  subst hbuf
  subst hin
  unfold onModuleDestroy flush stop batcherFlush awaitPending settleInFlight
  simp [hchunk, settleInFlight]

/-- C7 witness. -/
theorem C7_shutdown_drains_buffer_witness :
    ((BatcherState.mk [7] true [] : BatcherState Nat).buffer = [7]
      ∧ (BatcherState.mk [7] true [] : BatcherState Nat).inFlight = []
      ∧ 0 < sampleOptions.maxBatchSize)
    ∧ (onModuleDestroy sampleOptions sendAllOk ⟨0⟩
        (BatcherState.mk [7] true [])).2.2.1 = [[7]]
    ∧ (onModuleDestroy sampleOptions sendAllOk ⟨0⟩
        (BatcherState.mk [7] true [])).1.timerArmed = false :=
  ⟨⟨rfl, rfl, by decide⟩,
    (C7_shutdown_drains_buffer sampleOptions sendAllOk ⟨0⟩
      (BatcherState.mk [7] true []) 7 rfl rfl (by decide)).2.2.2,
    (C7_shutdown_drains_buffer sampleOptions sendAllOk ⟨0⟩
      (BatcherState.mk [7] true []) 7 rfl rfl (by decide)).1⟩

end AutoSNSProducer

end AutoSnsProducer
